import Mathlib

/-!
A verification development for `src/tools/scrobble.py` of the Musium
repository: the listen-scrobbling submission engine.  Python datetimes are
modelled as seconds since the Unix epoch (`Int`), the SQLite store as lists
of rows, and network responses as explicit data.  Fallible paths return
`Option` or explicit outcome values; `assert` statements in the source are
modelled as explicit failure outcomes.
-/

namespace Musium

/-- The `Listen` dataclass: one eligible row of the `listens` table.
Datetimes (`started_at`, `completed_at`) are modelled as Unix seconds, which
is the only way the scrobbling code consumes them
(`int(self.started_at.timestamp())`). -/
structure Listen where
  id : Int
  started_at : Int
  completed_at : Int
  track_title : String
  album_title : String
  track_artist : String
  album_artist : String
  duration_seconds : Int
  track_number : Int
  disc_number : Int
deriving DecidableEq, Repr

/-- Hex digit character for a value below 16, lower case, as Python's
`json` module emits in `\uXXXX` escapes. -/
def hexDigit (n : Nat) : Char :=
  if n < 10 then Char.ofNat (48 + n) else Char.ofNat (87 + n)

/-- Four-digit lower-case hex rendering of a code unit, as in `\uXXXX`. -/
def hex4 (n : Nat) : String :=
  String.mk [hexDigit (n / 4096 % 16), hexDigit (n / 256 % 16),
             hexDigit (n / 16 % 16), hexDigit (n % 16)]

/-- Escaping of one character of a JSON string by Python's
`json.dumps` with its default `ensure_ascii=True`: the characters `"` and
`\` and the named control escapes get a backslash escape, every other
character outside `0x20`–`0x7e` becomes `\uXXXX` (a surrogate pair above
`0xffff`), and the printable ASCII range passes through. -/
def pyJsonEscapeChar (c : Char) : String :=
  if c = Char.ofNat 34 then "\\\""
  else if c = Char.ofNat 92 then "\\\\"
  else if c = Char.ofNat 10 then "\\n"
  else if c = Char.ofNat 13 then "\\r"
  else if c = Char.ofNat 9 then "\\t"
  else if c = Char.ofNat 8 then "\\b"
  else if c = Char.ofNat 12 then "\\f"
  else if c.toNat < 32 || c.toNat ≥ 127 then
    if c.toNat < 65536 then
      "\\u" ++ hex4 c.toNat
    else
      let v := c.toNat - 65536
      "\\u" ++ hex4 (55296 + v / 1024) ++ "\\u" ++ hex4 (56320 + v % 1024)
  else String.singleton c

/-- A Python JSON string literal: quotes around the escaped characters. -/
def pyJsonStr (s : String) : String :=
  "\"" ++ String.join (s.data.map pyJsonEscapeChar) ++ "\""

/-- Python's rendering of an `int` in JSON (same as `repr`). -/
def pyIntRepr (i : Int) : String := toString i

/-- The serialized form of `Listen.format_listenbrainz_listen`, fused with
`json.dumps` (default separators `", "` and `": "`, `ensure_ascii=True`,
dict insertion order preserved).  The dict built by the source is
`{"listened_at": ..., "track_metadata": {"additional_info":
{"listening_from": "Musium", "tracknumber": ...}, "artist_name": ...,
"track_name": ..., "release_name": ...}}`. -/
def format_listenbrainz_listen (l : Listen) : String :=
  "\x7b\"listened_at\": " ++ pyIntRepr l.started_at ++
  ", \"track_metadata\": \x7b\"additional_info\": \x7b\"listening_from\": \"Musium\", \"tracknumber\": " ++
  pyIntRepr l.track_number ++
  "\x7d, \"artist_name\": " ++ pyJsonStr l.track_artist ++
  ", \"track_name\": " ++ pyJsonStr l.track_title ++
  ", \"release_name\": " ++ pyJsonStr l.album_title ++
  "\x7d\x7d"

/-- Joining a list of serialized values with Python's `json.dumps` item
separator, as happens for the elements of a JSON array. -/
def joinSep (sep : String) : List String → String
  | [] => ""
  | [s] => s
  | s :: s2 :: ss => s ++ sep ++ joinSep sep (s2 :: ss)

/-- The serialized request body built by
`format_batch_request_listenbrainz`: `json.dumps` of
`{"listen_type": "import", "payload": [...]}` with the listens serialized
in order. -/
def listenbrainzBody (listens : List Listen) : String :=
  "\x7b\"listen_type\": \"import\", \"payload\": [" ++
  joinSep ", " (listens.map format_listenbrainz_listen) ++
  "]\x7d"

/-- `LISTENBRAINZ_MAX_BODY_BYTES`: the Listenbrainz request body limit. -/
def LISTENBRAINZ_MAX_BODY_BYTES : Nat := 10240

/-- The `Request` object built for a Listenbrainz submission; only the
fields the tool sets. -/
structure LbRequest where
  url : String
  method : String
  authToken : String
  data : String
deriving DecidableEq, Repr

/-- `format_batch_request_listenbrainz`: serialize the batch; refuse
(`None`) when the UTF-8 encoded body exceeds the byte budget, otherwise
build the POST request. -/
def format_batch_request_listenbrainz (token : String) (listens : List Listen) :
    Option LbRequest :=
  let body_bytes := listenbrainzBody listens
  if body_bytes.utf8ByteSize > LISTENBRAINZ_MAX_BODY_BYTES then none
  else some ⟨"https://api.listenbrainz.org/1/submit-listens", "POST", token, body_bytes⟩

/-- The loop body of `iter_chunks`: `result` is the accumulator list; a
full chunk of `n` items is yielded and the accumulator reset; at the end of
the input a non-empty remainder is yielded. -/
def iterChunksGo (n : Nat) : List T → List T → List (List T)
  | [], result => if result.length > 0 then [result] else []
  | e :: es, result =>
    let r := result ++ [e]
    if r.length = n then r :: iterChunksGo n es [] else iterChunksGo n es r

/-- `iter_chunks`: yield chunks of `n` items from the input; the last chunk
may be smaller. -/
def iter_chunks (events : List T) (n : Nat) : List (List T) :=
  iterChunksGo n events []

/-- `listens_per_batch = LISTENBRAINZ_MAX_BODY_BYTES // 215`: the initial
batch size guess of `iter_requests_listenbrainz` (= 47). -/
def listens_per_batch : Nat := LISTENBRAINZ_MAX_BODY_BYTES / 215

/-- State of the `iter_requests_listenbrainz` loop between two iterations:
the rolling buffer `listens_remaining`, the listens not yet pulled through
the `iter_chunks(listens, listens_per_batch)` iterator (`upstream`), and
the current target batch size `n`. -/
structure LbState where
  listens_remaining : List Listen
  upstream : List Listen
  n : Nat
deriving DecidableEq, Repr

/-- Fueled version of the replenishment loop
`while len(listens_remaining) < 2 * listens_per_batch: ... next(batches)`.
Each pull takes the next chunk of `listens_per_batch` items from upstream;
an exhausted upstream (`StopIteration`) ends the loop.  The fuel only
bounds the recursion; `lbReplenish` below supplies enough of it. -/
def lbReplenishF : Nat → List Listen → List Listen → List Listen × List Listen
  | 0, buf, up => (buf, up)
  | fuel + 1, buf, up =>
    if buf.length < 2 * listens_per_batch then
      match up with
      | [] => (buf, [])
      | _ :: _ => lbReplenishF fuel (buf ++ up.take listens_per_batch)
          (up.drop listens_per_batch)
    else (buf, up)

/-- The replenishment phase at the top of each `iter_requests_listenbrainz`
loop iteration.  `up.length` pulls always suffice because every pull from a
non-empty upstream consumes at least one listen. -/
def lbReplenish (buf up : List Listen) : List Listen × List Listen :=
  lbReplenishF up.length buf up

/-- Result of one iteration of the `while True` loop of
`iter_requests_listenbrainz`: a batch is yielded and `n` grows by 5, or the
batch was over budget and `n` shrinks by 1, or the buffer was empty and the
generator is done, or one of the two `assert` statements fired. -/
inductive LbRoundResult where
  | emit (batch : List Listen) (req : LbRequest) (next : LbState)
  | shrink (next : LbState)
  | done
  | assertFail
deriving DecidableEq, Repr

/-- One iteration of the `while True` loop of `iter_requests_listenbrainz`:
replenish the buffer, stop if it is still empty, slice out `n` listens,
format the request; on success yield and grow `n` by 5, on an over-budget
request put the slice back and shrink `n` by 1 (asserting `n > 1`). -/
def lbRound (token : String) (s : LbState) : LbRoundResult :=
  let p := lbReplenish s.listens_remaining s.upstream
  if p.1.length = 0 then .done
  else
    let batch := p.1.take s.n
    let rest := p.1.drop s.n
    match format_batch_request_listenbrainz token batch with
    | some req =>
      if 0 < batch.length then .emit batch req ⟨rest, p.2, s.n + 5⟩ else .assertFail
    | none =>
      if 1 < s.n then .shrink ⟨p.1, p.2, s.n - 1⟩ else .assertFail

/-- The initial state of `iter_requests_listenbrainz` on a given upstream
sequence of listens: empty buffer, initial target size. -/
def lbInit (listens : List Listen) : LbState :=
  ⟨[], listens, listens_per_batch⟩

/-- `s` goes to `t` in one loop iteration that does not end the generator:
either a batch was emitted or the target size shrank. -/
def lbStep (token : String) (s t : LbState) : Prop :=
  (∃ b r, lbRound token s = .emit b r t) ∨ lbRound token s = .shrink t

/-- `t` is a state of some iteration of the `iter_requests_listenbrainz`
loop started at `s`. -/
def lbReaches (token : String) (s t : LbState) : Prop :=
  Relation.ReflTransGen (lbStep token) s t

/-- How a run of the generator ended: normally (empty buffer), by a failed
`assert`, or because the recursion fuel ran out. -/
inductive LbOutcome where
  | finished
  | failed
  | outOfFuel
deriving DecidableEq, Repr

/-- Fueled run of the `iter_requests_listenbrainz` loop, collecting the
yielded `ListenbrainzBatch(batch, request)` pairs in order. -/
def lbRunF (token : String) : Nat → LbState → List (List Listen × LbRequest) × LbOutcome
  | 0, _ => ([], .outOfFuel)
  | fuel + 1, s =>
    match lbRound token s with
    | .emit batch req next =>
      let r := lbRunF token fuel next
      ((batch, req) :: r.1, r.2)
    | .shrink next => lbRunF token fuel next
    | .done => ([], .finished)
    | .assertFail => ([], .failed)

/-- `iter_requests_listenbrainz`: run the adaptive batcher on a finite
upstream sequence with the given recursion fuel. -/
def iter_requests_listenbrainz (token : String) (listens : List Listen)
    (fuel : Nat) : List (List Listen × LbRequest) × LbOutcome :=
  lbRunF token fuel (lbInit listens)

/-- One row of the `listens` table as the scrobbling engine sees it: the
identity and the nullable `scrobbled_at` marker column (the only column the
engine ever writes). -/
structure ListenRow where
  id : Int
  scrobbled_at : Option Int
deriving DecidableEq, Repr

/-- `set_scrobbled`: run
`update listens set scrobbled_at = ? where id = ?` once per requested row
id (in order, as `executemany` does) and commit. -/
def set_scrobbled (store : List ListenRow) (now : Int) (row_ids : List Int) :
    List ListenRow :=
  row_ids.foldl
    (fun st rid => st.map (fun r => if r.id = rid then ⟨r.id, some now⟩ else r))
    store

/-- One per-item result of a Last.fm scrobble response: the
`ignoredMessage.code` string (`"0"` means accepted). -/
structure LastfmScrobbleResult where
  ignoredMessageCode : String
deriving DecidableEq, Repr

/-- The shape of `response["scrobbles"]["scrobble"]`: Last.fm collapses a
single-element list to a bare object. -/
inductive ScrobblesField where
  | single (s : LastfmScrobbleResult)
  | multiple (ss : List LastfmScrobbleResult)
deriving DecidableEq, Repr

/-- The fields of a Last.fm `track.scrobble` response that `cmd_scrobble`
reads: the batch-level `accepted` counter and the per-item results. -/
structure LastfmScrobbleResponse where
  accepted : Nat
  scrobble : ScrobblesField
deriving DecidableEq, Repr

/-- The re-wrapping `if not isinstance(scrobbles, list): scrobbles =
[scrobbles]` in `cmd_scrobble`. -/
def normalizeScrobbles : ScrobblesField → List LastfmScrobbleResult
  | .single s => [s]
  | .multiple ss => ss

/-- Outcome of processing one Last.fm batch inside `cmd_scrobble`: the
store after `set_scrobbled` ran, the ids accepted per item, and whether the
`assert len(ids_accepted) == num_accepted` failed (it runs only after the
store was already updated and committed). -/
structure ScrobbleBatchOutcome where
  store : List ListenRow
  ids_accepted : List Int
  assertionFailed : Bool
deriving DecidableEq, Repr

/-- One iteration of the batch loop in `cmd_scrobble`: normalize the
per-item results, collect `listen.id` for every zipped pair whose
`ignoredMessage.code` is the string `"0"`, mark those ids via
`set_scrobbled`, then evaluate the accepted-count assertion. -/
def scrobbleBatchStep (store : List ListenRow) (now : Int) (batch : List Listen)
    (resp : LastfmScrobbleResponse) : ScrobbleBatchOutcome :=
  let scrobbles := normalizeScrobbles resp.scrobble
  let ids_accepted := (batch.zip scrobbles).filterMap
    (fun q => if q.2.ignoredMessageCode = "0" then some q.1.id else none)
  let store1 := set_scrobbled store now ids_accepted
  ⟨store1, ids_accepted, ids_accepted.length ≠ resp.accepted⟩

/-- Python tuple comparison on `(key, value)` pairs, as `sorted` uses on
`params.items()`. -/
def pairLe (a b : String × String) : Bool :=
  decide (a.1 < b.1) || (a.1 == b.1 && decide (a.2 ≤ b.2))

/-- Insertion into a sorted pair list, preserving the order `pairLe`. -/
def insertPairSorted (p : String × String) :
    List (String × String) → List (String × String)
  | [] => [p]
  | q :: qs => if pairLe p q then p :: q :: qs else q :: insertPairSorted p qs

/-- `sorted(params.items())`: sort the parameter pairs. -/
def sortPairs : List (String × String) → List (String × String)
  | [] => []
  | p :: ps => insertPairSorted p (sortPairs ps)

/-- Python dict assignment `d[k] = v`: replace in place when the key is
present, append otherwise. -/
def dictSet (d : List (String × String)) (k v : String) :
    List (String × String) :=
  if d.any (fun q => decide (q.1 = k)) then
    d.map (fun q => if q.1 = k then (k, v) else q)
  else d ++ [(k, v)]

/-- Dict lookup by key (first matching entry). -/
def dictLookup (d : List (String × String)) (k : String) : Option String :=
  (d.find? (fun q => decide (q.1 = k))).map (fun q => q.2)

/-- The characters `urllib.parse.quote` never escapes: ASCII letters,
digits, and `_.-~` (with `safe=""` nothing else is safe). -/
def isUrlSafeChar (c : Char) : Bool :=
  (65 ≤ c.toNat && c.toNat ≤ 90) || (97 ≤ c.toNat && c.toNat ≤ 122) ||
  (48 ≤ c.toNat && c.toNat ≤ 57) ||
  c.toNat = 95 || c.toNat = 46 || c.toNat = 126 || c.toNat = 45

/-- UTF-8 encoding of a code point as byte values. -/
def utf8EncodeCharNat (n : Nat) : List Nat :=
  if n < 128 then [n]
  else if n < 2048 then [192 + n / 64, 128 + n % 64]
  else if n < 65536 then [224 + n / 4096, 128 + n / 64 % 64, 128 + n % 64]
  else [240 + n / 262144, 128 + n / 4096 % 64, 128 + n / 64 % 64, 128 + n % 64]

/-- Upper-case hex digit, as `quote` emits in `%XX` escapes. -/
def hexDigitUpper (n : Nat) : Char :=
  if n < 10 then Char.ofNat (48 + n) else Char.ofNat (55 + n)

/-- `urllib.parse.quote` applied to one character with `safe=""`: safe
characters pass through, everything else is percent-escaped per UTF-8
byte (space becomes `%20`, the slash is escaped too). -/
def percentEncodeChar (c : Char) : String :=
  if isUrlSafeChar c then String.singleton c
  else String.join ((utf8EncodeCharNat c.toNat).map
    (fun b => String.mk [Char.ofNat 37, hexDigitUpper (b / 16), hexDigitUpper (b % 16)]))

/-- `urllib.parse.quote(s, safe="")`. -/
def quote (s : String) : String :=
  String.join (s.data.map percentEncodeChar)

/-- `urlencode(params, quote_via=quote, safe="")`: `key=value` pairs joined
by ampersands, both sides percent-escaped. -/
def urlencodeParams (ps : List (String × String)) : String :=
  joinSep "&" (ps.map (fun p => quote p.1 ++ "=" ++ quote p.2))

/-- The `Request` built by `format_signed_request`: the final parameter
dict (in Python dict order) and the encoded body. -/
structure SignedRequest where
  url : String
  method : String
  params : List (String × String)
  body : String

/-- `format_signed_request`: merge the API key into the caller's
parameters, sort by key, concatenate every `key` directly followed by its
`value`, append the shared secret, sign with the (abstracted) hex-encoded
MD5 digest `md5hex` (the source computes
`hashlib.md5(sign_input.encode("utf-8")).hexdigest()`), then add the
`format` parameter, which is deliberately not part of the signature
input. -/
def format_signed_request (md5hex : String → String) (api_key secret : String)
    (http_method : String) (data : List (String × String)) : SignedRequest :=
  let params := dictSet data "api_key" api_key
  let params := sortPairs params
  let sign_input := String.join (params.map (fun p => p.1 ++ p.2)) ++ secret
  let params := dictSet params "api_sig" (md5hex sign_input)
  let params := dictSet params "format" "json"
  ⟨"https://ws.audioscrobbler.com/2.0/", http_method, params, urlencodeParams params⟩

/-- The signature input exactly as the specification describes it: sort all
parameters (the caller's plus the merged API key) lexicographically by key,
concatenate each key immediately followed by its value with no separator,
and append the shared secret.  The response-format parameter is absent. -/
def specSignatureInput (api_key secret : String)
    (data : List (String × String)) : String :=
  String.join ((sortPairs (dictSet data "api_key" api_key)).map
    (fun p => p.1 ++ p.2)) ++ secret

/-- Is a byte value a UTF-8 continuation byte? -/
def utf8Cont (b : Nat) : Bool := 128 ≤ b && b < 192

/-- Strict UTF-8 decoding of byte values (as Python's `bytes.decode`):
rejects truncated sequences, overlong encodings, surrogates and code
points beyond U+10FFFF. -/
def utf8Decode : List Nat → Option (List Char)
  | [] => some []
  | b :: bs =>
    if b < 128 then (utf8Decode bs).map (fun cs => Char.ofNat b :: cs)
    else if 194 ≤ b && b < 224 then
      match bs with
      | b2 :: bs2 =>
        if utf8Cont b2 then
          (utf8Decode bs2).map (fun cs => Char.ofNat ((b - 192) * 64 + (b2 - 128)) :: cs)
        else none
      | [] => none
    else if 224 ≤ b && b < 240 then
      match bs with
      | b2 :: b3 :: bs3 =>
        let cp := (b - 224) * 4096 + (b2 - 128) * 64 + (b3 - 128)
        if utf8Cont b2 && utf8Cont b3 && 2048 ≤ cp &&
            !(55296 ≤ cp && cp < 57344) then
          (utf8Decode bs3).map (fun cs => Char.ofNat cp :: cs)
        else none
      | _ => none
    else if 240 ≤ b && b < 245 then
      match bs with
      | b2 :: b3 :: b4 :: bs4 =>
        let cp := (b - 240) * 262144 + (b2 - 128) * 4096 + (b3 - 128) * 64 + (b4 - 128)
        if utf8Cont b2 && utf8Cont b3 && utf8Cont b4 && 65536 ≤ cp &&
            cp < 1114112 then
          (utf8Decode bs4).map (fun cs => Char.ofNat cp :: cs)
        else none
      | _ => none
    else none

/-- Does the character list start with the given pattern? -/
def charsStartsWith : List Char → List Char → Bool
  | _, [] => true
  | [], _ :: _ => false
  | c :: cs, p :: ps => c == p && charsStartsWith cs ps

/-- Substring containment on character lists: Python's `pat in s`. -/
def charsContains (pat : List Char) : List Char → Bool
  | [] => charsStartsWith [] pat
  | c :: cs => charsStartsWith (c :: cs) pat || charsContains pat cs

/-- `fix_misencodings`: when the double-encoding signature `Ã©` occurs in
the string, re-encode as latin-1 and decode as UTF-8.  The exception paths
of the source (a character above U+00FF on encode, invalid UTF-8 on
decode, both of which would raise) are modelled as returning the input
unchanged; no verified claim depends on those paths. -/
def fix_misencodings (s : String) : String :=
  if charsContains "Ã©".data s.data then
    if s.data.all (fun c => c.toNat < 256) then
      match utf8Decode (s.data.map Char.toNat) with
      | some cs => String.mk cs
      | none => s
    else s
  else s

/-- One track entry of a `user.getRecentTracks` page, with the fields the
importer reads (`date.uts`, `name`, `artist.#text`, `album.#text`,
`album.mbid`). -/
structure LastfmTrack where
  uts : Int
  name : String
  artist : String
  album : String
  album_mbid : String
deriving DecidableEq, Repr

/-- One staging row of the `lastfm_listens` table, as inserted by
`import_lastfm_page`. -/
structure StagingRow where
  started_at : Int
  title : String
  track_artist : String
  album : String
  album_mbid : String
deriving DecidableEq, Repr

/-- Modelled from the spec: the `insert ... on conflict do nothing` of
`import_lastfm_page`.  The `lastfm_listens` schema (its unique key) is not
under `src/`; spec §4.8 says staging rows are deduplicated by a natural key
of timestamp plus identifying fields, so the conflict key is modelled as
the whole inserted tuple. -/
def insertLastfmListen (db : List StagingRow) (r : StagingRow) :
    List StagingRow :=
  if r ∈ db then db else db ++ [r]

/-- The staging row built from one track: `fix_misencodings` is applied to
title, artist and album but not to the MusicBrainz id. -/
def trackToRow (t : LastfmTrack) : StagingRow :=
  ⟨t.uts, fix_misencodings t.name, fix_misencodings t.artist,
   fix_misencodings t.album, t.album_mbid⟩

/-- The `recenttracks` payload of a page response: the track list and the
`@attr` totals. -/
structure LastfmRecentTracks where
  track : List LastfmTrack
  totalPages : Nat
  total : Nat
deriving DecidableEq, Repr

/-- An HTTP response for one history page: the status and (for status 200)
the parsed payload. -/
structure LastfmHttpResponse where
  status : Nat
  recenttracks : LastfmRecentTracks
deriving DecidableEq, Repr

/-- The `LastfmPageImport` dataclass. -/
structure LastfmPageImport where
  total_pages : Nat
  total_listens : Nat
  min_started_at : Int
deriving DecidableEq, Repr

/-- Result of `import_lastfm_page`: `ok db none` models `return None`
(non-200 status), `ok db (some r)` a successful page, and `unboundLocal`
the `UnboundLocalError` that a 200 response with an empty track list
raises when the never-assigned `started_at` is read. -/
inductive PageImportResult where
  | ok (db : List StagingRow) (result : Option LastfmPageImport)
  | unboundLocal
deriving DecidableEq, Repr

/-- `import_lastfm_page`: insert every track row, then build the page
result from the `@attr` totals and the loop variable `started_at`, which
holds the `uts` of the last track processed — and is unbound when the
track list was empty. -/
def import_lastfm_page (db : List StagingRow) (resp : LastfmHttpResponse) :
    PageImportResult :=
  if resp.status ≠ 200 then .ok db none
  else
    match resp.recenttracks.track.getLast? with
    | none => .unboundLocal
    | some t =>
      .ok (resp.recenttracks.track.foldl
            (fun d tr => insertLastfmListen d (trackToRow tr)) db)
        (some ⟨resp.recenttracks.totalPages, resp.recenttracks.total, t.uts⟩)

/-- `select max(started_at) from lastfm_listens`. -/
def newestListen (db : List StagingRow) : Option Int :=
  (db.map (fun r => r.started_at)).max?

/-- The lower time bound computed by `cmd_lastfm_import`: none for a full
import; for an incremental import 16 days before now, or the minimum of
that and the newest locally known listen timestamp when one exists. -/
def lastfmAfterTimestamp (is_full : Bool) (now : Int)
    (newest_listen : Option Int) : Option Int :=
  if is_full then none
  else
    let base := now - 16 * 86400
    match newest_listen with
    | none => some base
    | some t => some (min base t)

/-- The `select count(1) from lastfm_listens where (started_at > ?)`
reconciliation count. -/
def countNewer (db : List StagingRow) (since : Int) : Nat :=
  (db.filter (fun r => since < r.started_at)).length

/-- What `cmd_lastfm_import` observed on one successfully processed page:
the page number, the reconciliation count after committing the page, and
the totals the service reported on that page. -/
structure PageRec where
  page : Nat
  n_have : Nat
  total_listens : Nat
  total_pages : Nat
deriving DecidableEq, Repr

/-- How the `cmd_lastfm_import` page loop ended: normal completion with
the processed-page records and final staging table, the
`assert n_errors < 10` abort, the `UnboundLocalError` crash on an empty
200 page, or fuel exhaustion. -/
inductive ImportOutcome where
  | complete (recs : List PageRec) (db : List StagingRow)
  | tooManyErrors
  | crashed
  | outOfFuel
deriving DecidableEq, Repr

/-- The `while True` page loop of `cmd_lastfm_import`, with the per-page
responses modelled as a function of the page number.  A non-200 response
rolls back (the staging table is unchanged), increments the consecutive
error counter and retries the same page; a success resets the counter,
commits, and stops when the reconciliation count equals the reported total
or the reported last page was just processed. -/
def lastfmImportLoop (responses : Nat → LastfmHttpResponse) (since : Int) :
    Nat → Nat → Nat → List StagingRow → ImportOutcome
  | 0, _, _, _ => .outOfFuel
  | fuel + 1, page, n_errors, db =>
    match import_lastfm_page db (responses page) with
    | .unboundLocal => .crashed
    | .ok _ none =>
      if n_errors + 1 < 10 then
        lastfmImportLoop responses since fuel page (n_errors + 1) db
      else .tooManyErrors
    | .ok db1 (some result) =>
      let n_have := countNewer db1 since
      let r0 : PageRec := ⟨page, n_have, result.total_listens, result.total_pages⟩
      if n_have = result.total_listens ∨ page = result.total_pages then
        .complete [r0] db1
      else
        match lastfmImportLoop responses since fuel (page + 1) 0 db1 with
        | .complete recs dbf => .complete (r0 :: recs) dbf
        | .tooManyErrors => .tooManyErrors
        | .crashed => .crashed
        | .outOfFuel => .outOfFuel

/-- `cmd_lastfm_import`: compute the lower bound (the incremental window
narrowing queries the staging table for its newest listen), derive the
count filter `since` from it (0 when unbounded), and run the page loop
starting at page 1 with no accumulated errors. -/
def cmd_lastfm_import (is_full : Bool) (now : Int)
    (responses : Nat → LastfmHttpResponse) (db : List StagingRow)
    (fuel : Nat) : ImportOutcome :=
  let after_timestamp := lastfmAfterTimestamp is_full now (newestListen db)
  let since : Int := match after_timestamp with | none => 0 | some t => t
  lastfmImportLoop responses since fuel 1 0 db

/-- The two rate-limit response headers of a Listenbrainz submission,
already parsed as numbers; `none` models an absent header (the source
defaults come from `headers.get(..., "10")` and `headers.get(..., "1")`). -/
structure RateLimitHeaders where
  remaining : Option Int
  resetIn : Option Int
deriving DecidableEq, Repr

/-- The rate-limit step after a successful Listenbrainz call: sleep for the
reported reset delay exactly when the remaining quota (default 10) is at
most 1; the slept duration defaults to 1 second. -/
def rateLimitSleepSeconds (h : RateLimitHeaders) : Option Int :=
  if h.remaining.getD 10 ≤ 1 then some (h.resetIn.getD 1) else none

/-- What one successful iteration of the `cmd_submit_listens` loop does to
local state: mark every listen of the batch as scrobbled, then decide the
rate-limit sleep from the response headers. -/
structure SubmitStepResult where
  store : List ListenRow
  sleepSeconds : Option Int
deriving DecidableEq, Repr

/-- The success branch of the `cmd_submit_listens` loop body (HTTP 200):
all ids of the batch are accepted and marked, then the rate limiter
inspects the headers. -/
def submitListensSuccessStep (store : List ListenRow) (now : Int)
    (batch : List Listen) (headers : RateLimitHeaders) : SubmitStepResult :=
  ⟨set_scrobbled store now (batch.map (fun l => l.id)),
   rateLimitSleepSeconds headers⟩

/-- A minimal concrete listen used for concrete runs: empty titles, zero
timestamps, distinguished only by its id (which does not occur in the
Listenbrainz serialization). -/
def mkListen (i : Nat) : Listen :=
  ⟨(i : Int), 0, 0, "", "", "", "", 0, 0, 0⟩

/-- A concrete upstream sequence of 142 listens, enough for the adaptive
batcher to finish one successful round (growing `n` to 52) and still have
unpulled upstream left during the second round's replenishment. -/
def cexInput : List Listen := (List.range 142).map mkListen

/-- The serialized form shared by every `mkListen i` (the id is not part
of the Listenbrainz payload). -/
def mkListenBody : String := format_listenbrainz_listen (mkListen 0)

/-- The state of the adaptive batcher at the start of its second round on
`cexInput`: 47 listens left in the buffer, 48 still upstream, and a target
size grown to 52. -/
def cexState1 : LbState :=
  ⟨(cexInput.take 94).drop 47, cexInput.drop 94, 47 + 5⟩

/-- A concrete track for the history-import scenario: distinct positive
timestamps, fixed text fields (free of the misencoding signature). -/
def c5Track (i : Nat) : LastfmTrack :=
  ⟨(i : Int) + 1, "t", "a", "al", "m"⟩

/-- Concrete page responses for the history-import scenario: every page is
a 200 with two fresh tracks, a reported total of 6 listens and a reported
10 total pages, so the counts match after page 3 of the reported 10. -/
def c5Responses (page : Nat) : LastfmHttpResponse :=
  ⟨200, ⟨[c5Track (2 * page), c5Track (2 * page + 1)], 10, 6⟩⟩

/-- The page records the history-import scenario produces: it halts at
page 3 (where the counts match) of the reported 10 pages. -/
def c5Recs : List PageRec :=
  [⟨1, 2, 6, 10⟩, ⟨2, 4, 6, 10⟩, ⟨3, 6, 6, 10⟩]

/-- The staging table at the end of the history-import scenario. -/
def c5Db : List StagingRow :=
  [⟨3, "t", "a", "al", "m"⟩, ⟨4, "t", "a", "al", "m"⟩, ⟨5, "t", "a", "al", "m"⟩,
   ⟨6, "t", "a", "al", "m"⟩, ⟨7, "t", "a", "al", "m"⟩, ⟨8, "t", "a", "al", "m"⟩]

/-- The stopping condition that `cmd_lastfm_import` evaluates after each
successfully processed page: the reconciliation count matches the reported
total, or the page just processed is the reported last page. -/
def pageStop (r : PageRec) : Prop :=
  r.n_have = r.total_listens ∨ r.page = r.total_pages

instance (r : PageRec) : Decidable (pageStop r) := by
  unfold pageStop
  infer_instance

/-!  Helper lemmas, shared between several claims.  -/

theorem set_scrobbled_eq_map (store : List ListenRow) (now : Int)
    (ids : List Int) :
    set_scrobbled store now ids =
      store.map (fun r => if r.id ∈ ids then ⟨r.id, some now⟩ else r) := by
  induction ids generalizing store with
  | nil => simp [set_scrobbled]
  | cons a as ih =>
    have h1 : set_scrobbled store now (a :: as) =
        set_scrobbled (store.map (fun r => if r.id = a then ⟨r.id, some now⟩ else r))
          now as := by
      simp [set_scrobbled]
    rw [h1, ih, List.map_map]
    apply List.map_congr_left
    intro r _
    by_cases hra : r.id = a
    · by_cases hmem : r.id ∈ as <;>
        simp [Function.comp, hra, hmem, List.mem_cons]
    · by_cases hmem : r.id ∈ as <;>
        simp [Function.comp, hra, hmem, List.mem_cons]

/-- Claim C7: marking a set of listen identities as scrobbled twice (same
identities, same timestamp) yields the same store state as marking it
once, and every row whose id is not among the marked identities is left
unchanged. -/
theorem c7_set_scrobbled_idempotent (store : List ListenRow) (now : Int)
    (ids : List Int) :
    set_scrobbled (set_scrobbled store now ids) now ids
      = set_scrobbled store now ids
    ∧ ∀ (i : Nat) (r : ListenRow), store[i]? = some r → r.id ∉ ids →
        (set_scrobbled store now ids)[i]? = some r := by
  constructor
  · rw [set_scrobbled_eq_map, set_scrobbled_eq_map, List.map_map]
    apply List.map_congr_left
    intro r _
    by_cases hmem : r.id ∈ ids <;> simp [Function.comp, hmem]
  · intro i r h hnot
    rw [set_scrobbled_eq_map, List.getElem?_map, h]
    simp [hnot]

/-- Witness for C7 at a concrete two-row store: row 2 is outside the
marked set and survives unchanged. -/
theorem c7_set_scrobbled_idempotent_witness :
    (set_scrobbled (set_scrobbled [⟨1, none⟩, ⟨2, none⟩] 5 [1]) 5 [1]
      = set_scrobbled [⟨1, none⟩, ⟨2, none⟩] 5 [1])
    ∧ (set_scrobbled [⟨1, none⟩, ⟨2, none⟩] 5 [1])[1]? = some ⟨2, none⟩ :=
  ⟨(c7_set_scrobbled_idempotent [⟨1, none⟩, ⟨2, none⟩] 5 [1]).1,
   (c7_set_scrobbled_idempotent [⟨1, none⟩, ⟨2, none⟩] 5 [1]).2 1 ⟨2, none⟩
     (by decide) (by decide)⟩

/-- Claim C8: after a successful Listenbrainz submission the client sleeps
iff the remaining quota (default 10 when the header is absent) is at most
1, and the slept duration is the reported reset delay (default 1 second
when absent); a response with both headers missing causes no sleep. -/
theorem c8_rate_limit_sleep (h : RateLimitHeaders) :
    ((rateLimitSleepSeconds h).isSome ↔ h.remaining.getD 10 ≤ 1)
    ∧ (∀ s, rateLimitSleepSeconds h = some s → s = h.resetIn.getD 1)
    ∧ rateLimitSleepSeconds ⟨none, none⟩ = none := by
  refine ⟨?_, ?_, rfl⟩ <;> unfold rateLimitSleepSeconds
  · split <;> simp_all
  · intro s hs
    split at hs <;> simp_all

/-- Witness for C8: remaining quota 1 triggers a sleep of the reported
7 seconds. -/
theorem c8_rate_limit_sleep_witness :
    rateLimitSleepSeconds ⟨some 1, some 7⟩ = some 7 ∧
    rateLimitSleepSeconds ⟨none, none⟩ = none := by
  have h := c8_rate_limit_sleep ⟨some 1, some 7⟩
  obtain ⟨s, hs⟩ := Option.isSome_iff_exists.mp (h.1.mpr (by decide))
  have hval := h.2.1 s hs
  refine ⟨?_, (c8_rate_limit_sleep ⟨none, none⟩).2.2⟩
  rw [hs, hval]
  rfl

/-- Claim C4 as stated is false: when the newest locally known listen is
more recent than the window start, the code keeps the window start (it
takes the minimum), it does not narrow the bound to the newest
timestamp. -/
theorem c4_counterexample :
    ¬ (∀ (now t : Int), now - 16 * 86400 < t →
        lastfmAfterTimestamp false now (some t) = some t) := by
  intro h
  have h1 := h 2000000 1900000 (by decide)
  have h2 : lastfmAfterTimestamp false 2000000 (some 1900000) = some 617600 := by
    decide
  rw [h1] at h2
  exact absurd h2 (by decide)

/-- Claim C4 amended: in incremental mode the lower bound is the minimum
of the window start (16 days before now) and the newest locally known
listen timestamp — i.e. it is widened to the newest known timestamp when
that is older than the window start, and stays at the window start when
the newest timestamp is more recent; in full mode there is no lower
bound. -/
theorem c4_amended (now t : Int) :
    (t ≤ now - 16 * 86400 → lastfmAfterTimestamp false now (some t) = some t)
    ∧ (now - 16 * 86400 ≤ t →
        lastfmAfterTimestamp false now (some t) = some (now - 16 * 86400))
    ∧ lastfmAfterTimestamp false now none = some (now - 16 * 86400)
    ∧ lastfmAfterTimestamp true now (some t) = none := by
  refine ⟨fun h => ?_, fun h => ?_, rfl, rfl⟩ <;>
    unfold lastfmAfterTimestamp
  · rw [if_neg (by simp)]
    exact congrArg some (min_eq_right h)
  · rw [if_neg (by simp)]
    exact congrArg some (min_eq_left h)

/-- Witness for C4 amended: with a newest listen 100 seconds older than
the window start, the bound is widened to the newest listen. -/
theorem c4_amended_witness :
    (1382300 : Int) ≤ 16 * 86400 + 1382400 - 16 * 86400
    ∧ lastfmAfterTimestamp false (16 * 86400 + 1382400) (some 1382300)
        = some 1382300 :=
  ⟨by decide, (c4_amended (16 * 86400 + 1382400) 1382300).1 (by decide)⟩

theorem iterChunksGo_flatten (n : Nat) (es : List T) :
    ∀ acc, (iterChunksGo n es acc).flatten = acc ++ es := by
  induction es with
  | nil =>
    intro acc
    by_cases h : acc.length > 0
    · simp [iterChunksGo, h]
    · have : acc = [] := List.length_eq_zero.mp (by omega)
      simp [iterChunksGo, h, this]
  | cons e es ih =>
    intro acc
    simp only [iterChunksGo]
    split <;> simp [ih]

theorem iterChunksGo_sizes (n : Nat) (es : List T) :
    ∀ acc, acc.length < n →
      ∀ c ∈ iterChunksGo n es acc, c ≠ [] ∧ c.length ≤ n := by
  induction es with
  | nil =>
    intro acc hacc c hc
    simp only [iterChunksGo] at hc
    split at hc
    case isTrue h =>
      rw [List.mem_singleton] at hc
      subst hc
      exact ⟨fun he => by simp [he] at h, Nat.le_of_lt hacc⟩
    case isFalse h => simp at hc
  | cons e es ih =>
    intro acc hacc c hc
    simp only [iterChunksGo] at hc
    split at hc
    case isTrue h =>
      rcases List.mem_cons.mp hc with rfl | hmem
      · exact ⟨fun he => by simp [he] at h; omega, Nat.le_of_eq h⟩
      · have hn : 0 < n := by
          simp only [List.length_append, List.length_cons, List.length_nil] at h
          omega
        exact ih [] (by simpa using hn) c hmem
    case isFalse h =>
      refine ih (acc ++ [e]) ?_ c hc
      simp only [List.length_append, List.length_cons, List.length_nil] at h ⊢
      omega

theorem iterChunksGo_dropLast (n : Nat) (es : List T) :
    ∀ acc, ∀ c ∈ (iterChunksGo n es acc).dropLast, c.length = n := by
  induction es with
  | nil =>
    intro acc c hc
    simp only [iterChunksGo] at hc
    split at hc <;> simp at hc
  | cons e es ih =>
    intro acc c hc
    simp only [iterChunksGo] at hc
    split at hc
    case isTrue h =>
      cases hrest : iterChunksGo n es [] with
      | nil => rw [hrest] at hc; simp at hc
      | cons g gs =>
        rw [hrest, List.dropLast_cons₂] at hc
        rcases List.mem_cons.mp hc with rfl | hmem
        · exact h
        · exact ih [] c (hrest ▸ hmem)
    case isFalse h => exact ih (acc ++ [e]) c hc

/-- Claim C9: for `n ≥ 1` the fixed-count chunker yields non-empty
consecutive groups of at most `n` items whose concatenation is the input
in order, every group before the last having exactly `n` items; 120
listens with `n = 50` yield groups of sizes 50, 50, 20. -/
theorem c9_iter_chunks :
    (∀ (T : Type) (l : List T) (n : Nat), 1 ≤ n →
      (iter_chunks l n).flatten = l
      ∧ (∀ c ∈ iter_chunks l n, c ≠ [] ∧ c.length ≤ n)
      ∧ (∀ c ∈ (iter_chunks l n).dropLast, c.length = n))
    ∧ (iter_chunks (List.range 120) 50).map List.length = [50, 50, 20] := by
  constructor
  · intro T l n hn
    refine ⟨?_, ?_, ?_⟩
    · simpa using iterChunksGo_flatten n l []
    · exact iterChunksGo_sizes n l [] (by simpa using hn)
    · exact iterChunksGo_dropLast n l []
  · decide

/-- Witness for C9 at the concrete scenario of the claim: 120 listens,
batch size 50. -/
theorem c9_iter_chunks_witness :
    1 ≤ 50 ∧ (iter_chunks (List.range 120) 50).flatten = List.range 120 :=
  ⟨by decide, (c9_iter_chunks.1 Nat (List.range 120) 50 (by decide)).1⟩

/-- Claim C10: a 200 page response yields a page result only when the
track list is non-empty — with the oldest-listen timestamp taken from the
last track row processed — and a 200 response with an empty track list
ends in the unbound-variable error instead of returning a result. -/
theorem c10_import_page_needs_tracks (db : List StagingRow)
    (resp : LastfmHttpResponse) (h200 : resp.status = 200) :
    (resp.recenttracks.track = [] →
      import_lastfm_page db resp = .unboundLocal)
    ∧ (∀ (t : LastfmTrack) (ts : List LastfmTrack),
        resp.recenttracks.track = ts ++ [t] →
        ∃ db1, import_lastfm_page db resp =
          .ok db1 (some ⟨resp.recenttracks.totalPages,
                         resp.recenttracks.total, t.uts⟩)) := by
  unfold import_lastfm_page
  rw [if_neg (by simp [h200])]
  constructor
  · intro he
    rw [he]
    rfl
  · intro t ts he
    rw [he, List.getLast?_concat]
    exact ⟨_, rfl⟩

/-- Witness for C10: a concrete 200 response with two tracks produces a
result carrying the second (last processed) track's timestamp. -/
theorem c10_import_page_needs_tracks_witness :
    ∃ db1, import_lastfm_page []
        ⟨200, ⟨[⟨5, "n", "a", "b", "m"⟩, ⟨3, "n2", "a2", "b2", "m2"⟩], 4, 7⟩⟩ =
      .ok db1 (some ⟨4, 7, 3⟩) :=
  (c10_import_page_needs_tracks []
      ⟨200, ⟨[⟨5, "n", "a", "b", "m"⟩, ⟨3, "n2", "a2", "b2", "m2"⟩], 4, 7⟩⟩
      rfl).2
    ⟨3, "n2", "a2", "b2", "m2"⟩ [⟨5, "n", "a", "b", "m"⟩] rfl

/-- Claim C1 as stated is false: on a batch whose per-item results disagree
with the batch-level accepted counter, the run does abort, but the store is
not left unchanged — `set_scrobbled` has already marked the per-item
accepted listens before the assertion runs. -/
theorem c1_counterexample :
    ¬ (∀ (store : List ListenRow) (now : Int) (batch : List Listen)
          (resp : LastfmScrobbleResponse),
        (normalizeScrobbles resp.scrobble).countP
            (fun s => s.ignoredMessageCode == "0") ≠ resp.accepted →
        (scrobbleBatchStep store now batch resp).assertionFailed = true
        ∧ (scrobbleBatchStep store now batch resp).store = store) := by
  intro h
  have h1 := (h [⟨1, none⟩] 5 [mkListen 1] ⟨2, .single ⟨"0"⟩⟩ (by decide)).2
  exact absurd h1 (by decide)

/-- Claim C1 amended: when the number of per-item accepted (listen,
result) pairs disagrees with the batch-level accepted counter, the run
aborts fatally, but only after the per-item accepted listens of the batch
have been marked: every stored row is updated to carry the scrobble
timestamp exactly when its id is among the accepted ids, so the store is
unchanged only when no item of the batch was individually accepted. -/
theorem c1_mismatch_aborts_after_marking (store : List ListenRow) (now : Int)
    (batch : List Listen) (resp : LastfmScrobbleResponse)
    (hmis : (scrobbleBatchStep store now batch resp).ids_accepted.length
      ≠ resp.accepted) :
    (scrobbleBatchStep store now batch resp).assertionFailed = true
    ∧ ∀ (i : Nat) (r : ListenRow), store[i]? = some r →
        (scrobbleBatchStep store now batch resp).store[i]? =
          some (if r.id ∈ (scrobbleBatchStep store now batch resp).ids_accepted
                then ⟨r.id, some now⟩ else r) := by
  constructor
  · simp only [scrobbleBatchStep] at hmis ⊢
    exact decide_eq_true hmis
  · intro i r h
    show (set_scrobbled store now _)[i]? = _
    rw [set_scrobbled_eq_map, List.getElem?_map, h]
    rfl

/-- Witness for C1 amended at the concrete mismatching batch: the
assertion fails and the accepted row got marked first. -/
theorem c1_mismatch_aborts_after_marking_witness :
    (scrobbleBatchStep [⟨1, none⟩] 5 [mkListen 1] ⟨2, .single ⟨"0"⟩⟩
      ).assertionFailed = true
    ∧ (scrobbleBatchStep [⟨1, none⟩] 5 [mkListen 1] ⟨2, .single ⟨"0"⟩⟩
        ).store[0]? =
      some (if (1 : Int) ∈ (scrobbleBatchStep [⟨1, none⟩] 5 [mkListen 1]
            ⟨2, .single ⟨"0"⟩⟩).ids_accepted
          then ⟨1, some 5⟩ else ⟨1, none⟩) :=
  ⟨(c1_mismatch_aborts_after_marking [⟨1, none⟩] 5 [mkListen 1]
      ⟨2, .single ⟨"0"⟩⟩ (by decide)).1,
   (c1_mismatch_aborts_after_marking [⟨1, none⟩] 5 [mkListen 1]
      ⟨2, .single ⟨"0"⟩⟩ (by decide)).2 0 ⟨1, none⟩ (by decide)⟩

theorem dictLookup_cons (q : String × String) (qs : List (String × String))
    (k : String) :
    dictLookup (q :: qs) k = if q.1 = k then some q.2 else dictLookup qs k := by
  unfold dictLookup
  by_cases h : q.1 = k <;> simp [List.find?_cons, h]

theorem dictLookup_map_set (d : List (String × String)) (k v : String) :
    dictLookup (d.map (fun q => if q.1 = k then (k, v) else q)) k
      = if d.any (fun q => decide (q.1 = k)) then some v else none := by
  induction d with
  | nil => rfl
  | cons q qs ih =>
    rw [List.map_cons, List.any_cons]
    by_cases hq : q.1 = k
    · rw [if_pos hq, dictLookup_cons, if_pos (show ((k, v)).1 = k from rfl), hq,
        decide_eq_true (show k = k from rfl), Bool.true_or, if_pos rfl]
    · rw [if_neg hq, dictLookup_cons, if_neg hq, ih, decide_eq_false hq,
        Bool.false_or]

theorem dictLookup_append_self (d : List (String × String)) (k v : String) :
    d.any (fun q => decide (q.1 = k)) = false →
    dictLookup (d ++ [(k, v)]) k = some v := by
  induction d with
  | nil => intro _; simp [dictLookup, List.find?]
  | cons q qs ih =>
    intro h
    rw [List.any_cons, Bool.or_eq_false_iff] at h
    rw [List.cons_append, dictLookup_cons, if_neg (by simpa using h.1)]
    exact ih h.2

theorem dictLookup_map_other (d : List (String × String)) (k k' v : String)
    (h : ¬ k' = k) :
    dictLookup (d.map (fun q => if q.1 = k' then (k', v) else q)) k
      = dictLookup d k := by
  induction d with
  | nil => rfl
  | cons q qs ih =>
    rw [List.map_cons, dictLookup_cons]
    by_cases hq : q.1 = k'
    · rw [if_pos hq, dictLookup_cons, if_neg h, ih, if_neg (hq ▸ h)]
    · rw [if_neg hq, dictLookup_cons, ih]

theorem dictLookup_append_other (d : List (String × String)) (k k' v : String)
    (h : ¬ k' = k) :
    dictLookup (d ++ [(k', v)]) k = dictLookup d k := by
  induction d with
  | nil => simp [dictLookup, List.find?, h]
  | cons q qs ih =>
    rw [List.cons_append, dictLookup_cons, dictLookup_cons, ih]

theorem dictLookup_dictSet_self (d : List (String × String)) (k v : String) :
    dictLookup (dictSet d k v) k = some v := by
  unfold dictSet
  split
  case isTrue h => rw [dictLookup_map_set, if_pos h]
  case isFalse h =>
    refine dictLookup_append_self d k v ?_
    cases hb : d.any (fun q => decide (q.1 = k)) <;> simp_all

theorem dictLookup_dictSet_other (d : List (String × String)) (k k' v : String)
    (h : ¬ k' = k) :
    dictLookup (dictSet d k' v) k = dictLookup d k := by
  unfold dictSet
  split
  case isTrue hany => exact dictLookup_map_other d k k' v h
  case isFalse hany => exact dictLookup_append_other d k k' v h

/-- Claim C6: the request signature is the (hex-encoded MD5, abstracted as
`md5hex`) digest of exactly the string the spec describes — all caller
parameters plus the merged API key, sorted by key, each key directly
followed by its value, with the shared secret appended — and the
response-format parameter is added after signing, so it is not part of that
signature input. -/
theorem c6_signed_request (md5hex : String → String)
    (api_key secret method : String) (data : List (String × String)) :
    dictLookup (format_signed_request md5hex api_key secret method data).params
        "api_sig"
      = some (md5hex (specSignatureInput api_key secret data))
    ∧ dictLookup (format_signed_request md5hex api_key secret method data).params
        "format"
      = some "json" := by
  unfold format_signed_request specSignatureInput
  constructor
  · rw [dictLookup_dictSet_other _ _ _ _ (by decide)]
    exact dictLookup_dictSet_self _ _ _
  · exact dictLookup_dictSet_self _ _ _

theorem lastfmImportLoop_complete (responses : Nat → LastfmHttpResponse)
    (since : Int) :
    ∀ (fuel page n_errors : Nat) (db : List StagingRow)
      (recs : List PageRec) (dbf : List StagingRow),
      lastfmImportLoop responses since fuel page n_errors db
        = .complete recs dbf →
      recs ≠ []
      ∧ recs.map (fun r => r.page) = List.range' page recs.length
      ∧ (∀ r ∈ recs.dropLast, ¬ pageStop r)
      ∧ (∃ r, recs.getLast? = some r ∧ pageStop r) := by
  intro fuel
  induction fuel with
  | zero =>
    intro page ne db recs dbf h
    simp [lastfmImportLoop] at h
  | succ fuel ih =>
    intro page ne db recs dbf h
    simp only [lastfmImportLoop] at h
    split at h
    · simp at h
    · split at h
      · exact ih page (ne + 1) db recs dbf h
      · simp at h
    · rename_i db1 result heq2
      split at h
      case isTrue hstop =>
        simp only [ImportOutcome.complete.injEq] at h
        obtain ⟨h1, h2⟩ := h
        subst h1
        refine ⟨by simp, by simp [List.range'], by simp, ?_⟩
        refine ⟨⟨page, countNewer db1 since, result.total_listens,
          result.total_pages⟩, by simp, ?_⟩
        unfold pageStop
        exact hstop
      case isFalse hstop =>
        split at h
        case h_1 recs' dbf' heq3 =>
          simp only [ImportOutcome.complete.injEq] at h
          obtain ⟨h1, h2⟩ := h
          subst h1
          obtain ⟨hne', hmap', hdrop', hlast'⟩ :=
            ih (page + 1) 0 db1 recs' dbf' heq3
          refine ⟨by simp, ?_, ?_, ?_⟩
          · rw [List.map_cons, hmap', List.length_cons, List.range'_succ]
          · cases recs' with
            | nil => exact absurd rfl hne'
            | cons g gs =>
              rw [List.dropLast_cons₂]
              intro r hr
              rcases List.mem_cons.mp hr with rfl | hmem
              · exact hstop
              · exact hdrop' r hmem
          · cases recs' with
            | nil => exact absurd rfl hne'
            | cons g gs =>
              rw [List.getLast?_cons_cons]
              exact hlast'
        case h_2 => simp at h
        case h_3 => simp at h
        case h_4 => simp at h

/-- Claim C5: whenever the history import loop completes normally, the
pages it processed are consecutive starting at 1, every page before the
last satisfied neither stopping condition, and the final page satisfied
the stopping disjunction (count matches the reported total, or the page
equals the reported total page count) — so the loop halts at the first
page where either condition holds. -/
theorem c5_import_halts_at_first_stop (is_full : Bool) (now : Int)
    (responses : Nat → LastfmHttpResponse) (db : List StagingRow)
    (fuel : Nat) (recs : List PageRec) (dbf : List StagingRow)
    (h : cmd_lastfm_import is_full now responses db fuel
        = .complete recs dbf) :
    recs ≠ []
    ∧ recs.map (fun r => r.page) = List.range' 1 recs.length
    ∧ (∀ r ∈ recs.dropLast, ¬ pageStop r)
    ∧ (∃ r, recs.getLast? = some r ∧ pageStop r) := by
  unfold cmd_lastfm_import at h
  exact lastfmImportLoop_complete _ _ fuel 1 0 db recs dbf h

/-- Witness for C5: the concrete scenario with counts matching after page
3 of a reported 10 pages — the import halts at page 3, and the theorem's
conclusions hold there. -/
theorem c5_import_halts_at_first_stop_witness :
    (cmd_lastfm_import true 0 c5Responses [] 5 = .complete c5Recs c5Db)
    ∧ c5Recs.map (fun r => r.page) = List.range' 1 c5Recs.length
    ∧ (∀ r ∈ c5Recs.dropLast, ¬ pageStop r)
    ∧ (∃ r, c5Recs.getLast? = some r ∧ pageStop r) := by
  have h : cmd_lastfm_import true 0 c5Responses [] 5
      = .complete c5Recs c5Db := by decide
  have h2 := c5_import_halts_at_first_stop true 0 c5Responses [] 5 c5Recs c5Db h
  exact ⟨h, h2.2.1, h2.2.2.1, h2.2.2.2⟩

theorem format_batch_some_inv (token : String) (batch : List Listen)
    (req : LbRequest)
    (h : format_batch_request_listenbrainz token batch = some req) :
    req = ⟨"https://api.listenbrainz.org/1/submit-listens", "POST", token,
      listenbrainzBody batch⟩
    ∧ (listenbrainzBody batch).utf8ByteSize ≤ LISTENBRAINZ_MAX_BODY_BYTES := by
  simp only [format_batch_request_listenbrainz] at h
  split at h
  · simp at h
  · rename_i hgt
    refine ⟨?_, by omega⟩
    injection h with h1
    exact h1.symm

theorem lbRound_emit_inv (token : String) (s : LbState) (batch : List Listen)
    (req : LbRequest) (next : LbState)
    (h : lbRound token s = .emit batch req next) :
    batch ≠ []
    ∧ req.data = listenbrainzBody batch
    ∧ (listenbrainzBody batch).utf8ByteSize ≤ LISTENBRAINZ_MAX_BODY_BYTES := by
  simp only [lbRound] at h
  split at h
  · simp at h
  · split at h
    case h_1 req' heq =>
      split at h
      case isTrue hpos =>
        simp only [LbRoundResult.emit.injEq] at h
        obtain ⟨hb, hr, hn⟩ := h
        subst hb
        subst hr
        obtain ⟨hreq, hsize⟩ := format_batch_some_inv token _ _ heq
        subst hreq
        exact ⟨List.length_pos.mp hpos, rfl, hsize⟩
      case isFalse => simp at h
    case h_2 heq =>
      split at h <;> simp at h

/-- Claim C2: every batch the adaptive Listenbrainz batcher emits, on any
finite upstream sequence and with any recursion fuel, is non-empty and its
serialized JSON request body is at most `LISTENBRAINZ_MAX_BODY_BYTES`
(10,240) bytes; moreover the emitted request carries exactly that
serialized body. -/
theorem c2_lb_batches_nonempty_within_budget (token : String)
    (listens : List Listen) (fuel : Nat) (batch : List Listen)
    (req : LbRequest)
    (h : (batch, req) ∈ (iter_requests_listenbrainz token listens fuel).1) :
    batch ≠ []
    ∧ req.data = listenbrainzBody batch
    ∧ (listenbrainzBody batch).utf8ByteSize ≤ LISTENBRAINZ_MAX_BODY_BYTES := by
  unfold iter_requests_listenbrainz at h
  revert h
  generalize lbInit listens = s
  induction fuel generalizing s with
  | zero => intro h; simp [lbRunF] at h
  | succ fuel ih =>
    intro h
    simp only [lbRunF] at h
    split at h
    case h_1 batch' req' next heq =>
      rcases List.mem_cons.mp h with heq2 | hmem
      · obtain ⟨rfl, rfl⟩ := Prod.mk.injEq .. |>.mp heq2
        exact lbRound_emit_inv token s batch req next heq
      · exact ih next hmem
    case h_2 next heq => exact ih next h
    case h_3 heq => simp at h
    case h_4 heq => simp at h

set_option maxRecDepth 100000 in
/-- Witness for C2: a single-listen upstream yields exactly one batch,
which is non-empty and within budget. -/
theorem c2_lb_batches_nonempty_within_budget_witness :
    [mkListen 0] ≠ []
    ∧ (⟨"https://api.listenbrainz.org/1/submit-listens", "POST", "",
        listenbrainzBody [mkListen 0]⟩ : LbRequest).data
      = listenbrainzBody [mkListen 0]
    ∧ (listenbrainzBody [mkListen 0]).utf8ByteSize
      ≤ LISTENBRAINZ_MAX_BODY_BYTES :=
  c2_lb_batches_nonempty_within_budget "" [mkListen 0] 2 [mkListen 0]
    ⟨"https://api.listenbrainz.org/1/submit-listens", "POST", "",
      listenbrainzBody [mkListen 0]⟩
    (by decide)

theorem utf8ByteSize_append (a b : String) :
    (a ++ b).utf8ByteSize = a.utf8ByteSize + b.utf8ByteSize := by
  cases a with
  | mk da =>
    cases b with
    | mk db =>
      show (String.mk (da ++ db)).utf8ByteSize = _
      simp [String.utf8ByteSize_mk, String.utf8Len_append]

set_option maxRecDepth 10000 in
theorem mkListenBody_size : mkListenBody.utf8ByteSize = 162 := by decide

theorem format_mkListen (i : Nat) :
    format_listenbrainz_listen (mkListen i) = mkListenBody := rfl

theorem map_format_mkListen (l : List Nat) :
    (l.map mkListen).map format_listenbrainz_listen
      = List.replicate l.length mkListenBody := by
  induction l with
  | nil => rfl
  | cons a as ih =>
    rw [List.map_cons, List.map_cons, format_mkListen, List.length_cons,
      List.replicate_succ, ih]

theorem joinSep_replicate_size (sep s : String) (k : Nat) :
    (joinSep sep (List.replicate (k + 1) s)).utf8ByteSize
      = (k + 1) * s.utf8ByteSize + k * sep.utf8ByteSize := by
  induction k with
  | zero => simp [joinSep, List.replicate]
  | succ k ih =>
    rw [List.replicate_succ, List.replicate_succ]
    rw [show joinSep sep (s :: s :: List.replicate k s)
        = s ++ sep ++ joinSep sep (s :: List.replicate k s) from rfl]
    rw [utf8ByteSize_append, utf8ByteSize_append, ← List.replicate_succ, ih]
    ring

theorem listenbrainzBody_mkListens_size (l : List Nat) (hne : l ≠ []) :
    (listenbrainzBody (l.map mkListen)).utf8ByteSize = 164 * l.length + 38 := by
  cases l with
  | nil => exact absurd rfl hne
  | cons a as =>
    unfold listenbrainzBody
    rw [utf8ByteSize_append, utf8ByteSize_append, map_format_mkListen,
      List.length_cons, joinSep_replicate_size, mkListenBody_size]
    have h1 : ("\x7b\"listen_type\": \"import\", \"payload\": [" : String).utf8ByteSize
        = 38 := by decide
    have h2 : ("]\x7d" : String).utf8ByteSize = 2 := by decide
    have h3 : (", " : String).utf8ByteSize = 2 := by decide
    rw [h1, h2, h3]
    ring

theorem lbRound_emit (token : String) (s : LbState) (buf up : List Listen)
    (hrep : lbReplenish s.listens_remaining s.upstream = (buf, up))
    (hne : ¬ buf.length = 0)
    (hfit : ¬ (listenbrainzBody (buf.take s.n)).utf8ByteSize
      > LISTENBRAINZ_MAX_BODY_BYTES)
    (hpos : 0 < (buf.take s.n).length) :
    lbRound token s = .emit (buf.take s.n)
      ⟨"https://api.listenbrainz.org/1/submit-listens", "POST", token,
        listenbrainzBody (buf.take s.n)⟩
      ⟨buf.drop s.n, up, s.n + 5⟩ := by
  simp only [lbRound, format_batch_request_listenbrainz, hrep]
  simp only [if_neg hne, if_neg hfit, if_pos hpos]

theorem lbReplenishF_post (fuel : Nat) :
    ∀ (buf up : List Listen), up.length ≤ fuel →
      2 * listens_per_batch ≤ (lbReplenishF fuel buf up).1.length
      ∨ (lbReplenishF fuel buf up).2 = [] := by
  induction fuel with
  | zero =>
    intro buf up h
    have hup : up = [] := List.length_eq_zero.mp (Nat.le_zero.mp h)
    subst hup
    right
    rfl
  | succ fuel ih =>
    intro buf up h
    simp only [lbReplenishF]
    split
    case isTrue hlt =>
      split
      case h_1 => right; rfl
      case h_2 c cs =>
        apply ih
        have hlpb : listens_per_batch = 47 := rfl
        rw [hlpb] at hlt ⊢
        simp only [List.length_drop, List.length_cons] at h ⊢
        omega
    case isFalse hlt =>
      left
      show 2 * listens_per_batch ≤ buf.length
      omega

set_option maxRecDepth 100000 in
/-- Claim C3 as stated is false: after the first successful batch the
target size has grown to 52, but the replenishment loop still stops at
2 × 47 = 94 buffered listens — fewer than 2 × n = 104 — even though
upstream is not exhausted. -/
theorem c3_counterexample :
    ¬ (∀ s : LbState, lbReaches "" (lbInit cexInput) s →
        2 * s.n ≤ (lbReplenish s.listens_remaining s.upstream).1.length
        ∨ (lbReplenish s.listens_remaining s.upstream).2 = []) := by
  intro h
  have hbatch : (cexInput.take 94).take 47 = (List.range 47).map mkListen := by
    decide
  have hfit : ¬ (listenbrainzBody ((cexInput.take 94).take 47)).utf8ByteSize
      > LISTENBRAINZ_MAX_BODY_BYTES := by
    rw [hbatch, listenbrainzBody_mkListens_size (List.range 47) (by decide)]
    decide
  have hstep := lbRound_emit "" (lbInit cexInput) (cexInput.take 94)
    (cexInput.drop 94) (by decide) (by decide) hfit (by decide)
  have hreach : lbReaches "" (lbInit cexInput) cexState1 :=
    Relation.ReflTransGen.single (Or.inl ⟨_, _, hstep⟩)
  have hv := h cexState1 hreach
  exact absurd hv (by decide)

/-- Claim C3 amended: at every round of the adaptive batcher the
replenishment loop pulls from upstream until upstream is exhausted or the
buffer holds at least 2 × `listens_per_batch` items — twice the fixed
initial target size (2 × 47 = 94), not twice the current target size
`n`. -/
theorem c3_amended_replenish_threshold (token : String)
    (listens : List Listen) (s : LbState)
    (h : lbReaches token (lbInit listens) s) :
    2 * listens_per_batch
      ≤ (lbReplenish s.listens_remaining s.upstream).1.length
    ∨ (lbReplenish s.listens_remaining s.upstream).2 = [] :=
  lbReplenishF_post _ _ _ (Nat.le_refl _)

/-- Witness for C3 amended at the initial state of a run on an empty
upstream. -/
theorem c3_amended_replenish_threshold_witness :
    2 * listens_per_batch
      ≤ (lbReplenish (lbInit []).listens_remaining (lbInit []).upstream).1.length
    ∨ (lbReplenish (lbInit []).listens_remaining (lbInit []).upstream).2 = [] :=
  c3_amended_replenish_threshold "" [] (lbInit [])
    Relation.ReflTransGen.refl

end Musium
